import Mathlib

/-!
Verification of the metric-aggregation and checkpoint-persistence core of a
training framework.  The development shallowly embeds two Python modules:

* trainer/connectors/checkpoint_connector.py  (progress restore, checkpoint
  dump bookkeeping, HPC rotation-checkpoint naming), and
* trainer/connectors/logger_connector/result.py  (ResultMetric accumulators,
  ResultCollection logging, reset scoping, metric views, serialization).

Python strings are embedded as lists of characters, scalar tensors as
rationals, machine integers as naturals, and raised exceptions as an
explicit `exn` result.  Definitions follow the Python source line by line;
deviations forced by the embedding are recorded in the doc comments.
-/

set_option autoImplicit false

namespace PL

/-- Python strings, embedded as character lists so that every operation is
structurally recursive and kernel-evaluable. -/
abbrev PyStr := List Char

/-- Result of a Python call that may raise: `ok` carries the returned value,
`exn` marks a raised exception (the claims never depend on which one). -/
inductive PyRes (α : Type) where
  | ok (a : α)
  | exn
  deriving DecidableEq, Repr

/-- Python substring test `key in s`. -/
def pyContains (s key : PyStr) : Bool :=
  key.isPrefixOf s ||
    match s with
    | [] => false
    | _ :: t => pyContains t key

/-- Worker for `pySplitOn`: greedy left-to-right, non-overlapping split on a
separator, exactly as Python's `str.split(sep)`.  `fuel` bounds the recursion
(one unit per consumed character) so that the definition is structural. -/
def pySplitGo (key : PyStr) : Nat → PyStr → PyStr → List PyStr
  | 0, _, acc => [acc.reverse]
  | _ + 1, [], acc => [acc.reverse]
  | fuel + 1, c :: t, acc =>
    if !key.isEmpty && key.isPrefixOf (c :: t) then
      acc.reverse :: pySplitGo key fuel ((c :: t).drop key.length) []
    else
      pySplitGo key fuel t (c :: acc)

/-- Python `s.split(key)` for a non-empty separator. -/
def pySplitOn (s key : PyStr) : List PyStr :=
  pySplitGo key (s.length + 1) s []

/-- Value of a decimal digit string, used for Python `int(...)` on a string
that `re.sub('[^0-9]', '', ...)` has reduced to digits. -/
def digitsToNat (s : PyStr) : Nat :=
  s.foldl (fun acc c => acc * 10 + (c.toNat - 48)) 0

/-- Python `int(s)` on an all-digits string: raises `ValueError` on the empty
string, otherwise returns its value. -/
def pyInt (s : PyStr) : PyRes Nat :=
  if s.isEmpty then .exn else .ok (digitsToNat s)

/-! ## CheckpointConnector -/

/-- The trainer fields read by `restore_progress` and `dump_checkpoint`.
`max_epochs`, `max_steps` and `accumulate_grad_batches` are `None`-able in
Python and hence `Option`s here. -/
structure TrainerState where
  global_step : Nat
  current_epoch : Nat
  max_epochs : Option Nat
  max_steps : Option Nat
  num_training_batches : Nat
  accumulate_grad_batches : Option Nat
  deriving DecidableEq, Repr

/-- The `epoch` / `global_step` entries of a checkpoint dictionary (the only
entries the claims about loop counters mention). -/
structure Checkpoint where
  epoch : Nat
  global_step : Nat
  deriving DecidableEq, Repr

/-- Errors raised by the checkpoint connector. -/
inductive CkptError where
  | misconfiguration
  deriving DecidableEq, Repr

/-- Outcome of `restore_progress`: the trainer state as it stands when the
call returns or raises (Python mutates `self.trainer` in place, so the
mutation survives a raised exception), the raised error if any, and whether
the mid-epoch-resume warning fired. -/
structure RestoreOutcome where
  trainer : TrainerState
  error : Option CkptError
  warned : Bool
  deriving DecidableEq, Repr

/-- Python float modulo `a % b` (`a - b * floor(a / b)`), total on ℚ. -/
def pyMod (a b : ℚ) : ℚ := a - b * (⌊a / b⌋ : ℤ)

/-- `CheckpointConnector.restore_progress`: with no loaded checkpoint return
immediately; otherwise assign `global_step` and `current_epoch` from the
checkpoint, then raise `MisconfigurationException` when the restored epoch
exceeds a configured `max_epochs`, else possibly warn about a mid-epoch
resume. -/
def restore_progress (t : TrainerState) (loaded : Option Checkpoint) : RestoreOutcome :=
  match loaded with
  | none => ⟨t, none, false⟩
  | some ck =>
    let t := { t with global_step := ck.global_step, current_epoch := ck.epoch }
    if (match t.max_epochs with
        | some me => decide (me < t.current_epoch)
        | none => false) then
      ⟨t, some .misconfiguration, false⟩
    else
      let n_accum : Nat := t.accumulate_grad_batches.getD 1
      let expected_steps : ℚ := (t.num_training_batches : ℚ) / (n_accum : ℚ)
      let warned := decide (t.num_training_batches ≠ 0)
        && decide (1 < pyMod (t.global_step : ℚ) expected_steps)
      ⟨t, none, warned⟩

/-- Loop-counter bookkeeping of `CheckpointConnector.dump_checkpoint`: the
`epoch` and `global_step` entries of the produced checkpoint dictionary.
`has_reached_max_steps = max_steps and max_steps <= global_step` uses Python
truthiness, so `None` and `0` both count as "not reached". -/
def dump_checkpoint (t : TrainerState) : Checkpoint :=
  let current_epoch := t.current_epoch
  let global_step := t.global_step
  let has_reached_max_steps :=
    match t.max_steps with
    | none => false
    | some m => decide (m ≠ 0) && decide (m ≤ global_step)
  let global_step := global_step + 1
  let current_epoch := if !has_reached_max_steps then current_epoch + 1 else current_epoch
  ⟨current_epoch, global_step⟩

/-- Parse the rotation indices of every listed file that matches `name_key`
(`CheckpointConnector.max_ckpt_in_folder` body): keep the suffix after the
last `name_key` occurrence, strip non-digits, apply `int`. -/
def parseCkptIndices (name_key : PyStr) : List PyStr → PyRes (List Nat)
  | [] => .ok []
  | f :: fs =>
    match pyInt (((pySplitOn f name_key).getLastD []).filter Char.isDigit) with
    | .exn => .exn
    | .ok v =>
      match parseCkptIndices name_key fs with
      | .exn => .exn
      | .ok vs => .ok (v :: vs)

/-- `CheckpointConnector.max_ckpt_in_folder(dir_path, name_key='ckpt_')`.
The filesystem is summarised by `listing`: `none` when the directory does not
exist, otherwise the basenames of its entries. -/
def max_ckpt_in_folder (listing : Option (List PyStr)) (name_key : PyStr) : PyRes (Option Nat) :=
  match listing with
  | none => .ok none
  | some files =>
    let files := files.filter (fun x => pyContains x name_key)
    match files with
    | [] => .ok none
    | f :: fs =>
      match parseCkptIndices name_key (f :: fs) with
      | .exn => .exn
      | .ok vs => .ok (some (vs.foldl max 0))

/-- Default `name_key` of `max_ckpt_in_folder` (a substring test, note: not
anchored to the `hpc_ckpt_` prefix). -/
def defaultNameKey : PyStr := ("ckpt_").data

/-- `CheckpointConnector.get_max_ckpt_path_from_folder`: always returns the
concrete path `f'{folder_path}/hpc_ckpt_{max_suffix or 0}.ckpt'`, even when
no checkpoint exists. -/
def get_max_ckpt_path_from_folder (folder_path : PyStr) (listing : Option (List PyStr)) :
    PyRes PyStr :=
  match max_ckpt_in_folder listing defaultNameKey with
  | .exn => .exn
  | .ok max_suffix =>
    let ckpt_number := max_suffix.getD 0
    .ok (folder_path ++ ("/hpc_ckpt_").data ++ Nat.toDigits 10 ckpt_number ++ (".ckpt").data)

/-- Filename arithmetic of `CheckpointConnector.hpc_save`: after `makedirs`
the directory exists (an absent directory becomes an empty one), the next
index is `(max_ckpt_in_folder(folderpath) or 0) + 1`, and the write target is
`os.path.join(folderpath, f'hpc_ckpt_{ckpt_number}.ckpt')`.  Only the
filename computation is modelled; the dump contents and the pickling retry
are independent of it. -/
def hpc_save (folderpath : PyStr) (listing : Option (List PyStr)) : PyRes PyStr :=
  let listing := some (listing.getD [])
  match max_ckpt_in_folder listing defaultNameKey with
  | .exn => .exn
  | .ok max_suffix =>
    let ckpt_number := max_suffix.getD 0 + 1
    .ok (folderpath ++ ("/").data ++ ("hpc_ckpt_").data
          ++ Nat.toDigits 10 ckpt_number ++ (".ckpt").data)

/-- Modelled from the spec: "HPC rotation files named `hpc_ckpt_<N>.ckpt`" /
"max(existing hpc_ckpt_N indices, default 0) + 1".  Parses a filename of the
exact form `hpc_ckpt_<digits>.ckpt` to its index `N`; any other name is not
an HPC rotation checkpoint.  Used only to state what claim C6 asserts, for
comparison against the code's substring-based scan. -/
def specHpcIndex (s : PyStr) : Option Nat :=
  let pre := ("hpc_ckpt_").data
  let suf := (".ckpt").data
  if pre.isPrefixOf s then
    let rest := s.drop pre.length
    let digits := rest.take (rest.length - suf.length)
    let tail := rest.drop (rest.length - suf.length)
    if tail = suf && !digits.isEmpty && digits.all Char.isDigit then
      some (digitsToNat digits)
    else none
  else none

/-- Modelled from the spec: the rotation index claim C6 predicts for the next
`hpc_save`, namely `max(existing hpc_ckpt_N indices, default 0) + 1`. -/
def specHpcNextIndex (files : List PyStr) : Nat :=
  (files.filterMap specHpcIndex).foldl max 0 + 1

/-! ## result.py: ResultMetric

Scalar tensors are embedded as rationals; a logged tensor is a list of
scalars and `torch.mean` is its arithmetic mean.  An externally-defined
`torchmetrics.Metric` object is opaque: the embedding records only what the
accumulators read from it (its `compute()` output and `_forward_cache`), and
its `reset()` is an observable state change. -/

/-- Scalar tensor values. -/
abbrev Val := ℚ

/-- `torch.mean` of a tensor (`0` on the empty tensor; torch would give NaN,
so claims assume logged tensors are non-empty). -/
def tmean (t : List Val) : Val := t.sum / (t.length : ℚ)

/-- Reduction policy carried by `Metadata.reduce_fx`.  The source stores a
callable and compares it against `torch.mean` / `torch.max` / `torch.min`;
`other` stands for any callable that is none of the three (dispatch then
falls through `update` and raises at `compute`). -/
inductive ReduceFx where
  | mean
  | max
  | min
  | other
  deriving DecidableEq, Repr

/-- `Metadata` dataclass of result.py. -/
structure Metadata where
  fx : PyStr
  name : PyStr
  prog_bar : Bool := false
  logger : Bool := true
  on_step : Bool := false
  on_epoch : Bool := true
  reduce_fx : ReduceFx := .mean
  dataloader_idx : Option Nat := none
  metric_attribute : Option PyStr := none
  has_reset : Bool := false
  deriving DecidableEq, Repr

/-- `Metadata.forked`. -/
def Metadata.forked (m : Metadata) : Bool := m.on_step && m.on_epoch

/-- `Metadata.forked_name`. -/
def Metadata.forked_name (m : Metadata) (on_step : Bool) : PyStr :=
  if m.forked then
    m.name ++ (if on_step then ("_step").data else ("_epoch").data)
  else m.name

/-- An externally-defined `torchmetrics.Metric` object, reduced to the
observations the source makes of it: `computeVal` is what its `compute()`
returns, `fwdCache` its `_forward_cache`; `wasReset` records that its
`reset()` was invoked (the object's internal post-reset state is opaque). -/
structure MetricObj where
  computeVal : Val
  fwdCache : Option Val
  wasReset : Bool := false
  deriving DecidableEq, Repr

/-- `Metric.reset()` on an external metric object. -/
def MetricObj.reset (o : MetricObj) : MetricObj := { o with wasReset := true }

/-- Contents of the Python `value` attribute of a `ResultMetric`: a tensor
accumulator or a held metric object (after `load_from_state_dict`
re-attachment the attribute can hold either, regardless of `is_tensor`). -/
inductive MVal where
  | tensor (v : Val)
  | obj (o : MetricObj)
  deriving DecidableEq, Repr

/-- A value passed to `ResultCollection.log` / `ResultMetric.update`. -/
inductive LoggedVal where
  | tensor (t : List Val)
  | obj (o : MetricObj)
  deriving DecidableEq, Repr

/-- `ResultMetric` state.  `value` is `none` for a metric-object accumulator
before its first `update` (the constructor only registers the tensor state);
`cumulated_batch_size` is registered only for mean reduction in the source
but is carried (and never read) for the other reductions here.  `computed`
is the torchmetrics `_computed` cache, `fwdCache` its `_forward_cache`. -/
structure ResultMetric where
  meta : Metadata
  is_tensor : Bool
  value : Option MVal
  cumulated_batch_size : Val
  fwdCache : Option Val
  computed : Option Val
  deriving DecidableEq, Repr

/-- `ResultMetric.__init__(metadata, is_tensor)`: tensor accumulators start
from the scalar tensor `0` (also the `cumulated_batch_size` state for mean
reduction); a metric-object accumulator has no `value` yet. -/
def mkResultMetric (meta : Metadata) (is_tensor : Bool) : ResultMetric :=
  { meta := meta
    is_tensor := is_tensor
    value := if is_tensor then some (.tensor 0) else none
    cumulated_batch_size := 0
    fwdCache := none
    computed := none }

/-- `ResultMetric.update(value, batch_size)`.  Raises (`exn`) when the stored
or logged value has the wrong kind for the branch taken (`value.float()` on a
metric object, `value._forward_cache` on a tensor). -/
def ResultMetric.update (r : ResultMetric) (value : LoggedVal) (batch_size : Val) :
    PyRes ResultMetric :=
  if r.is_tensor then
    match value with
    | .obj _ => .exn
    | .tensor t =>
      match r.meta.reduce_fx with
      | .mean =>
        match r.value with
        | some (.tensor a) =>
          .ok { r with value := some (.tensor (a + tmean t * batch_size))
                       cumulated_batch_size := r.cumulated_batch_size + batch_size }
        | _ => .exn
      | .max =>
        match r.value with
        | some (.tensor a) => .ok { r with value := some (.tensor (Max.max a (tmean t))) }
        | _ => .exn
      | .min =>
        match r.value with
        | some (.tensor a) => .ok { r with value := some (.tensor (Min.min a (tmean t))) }
        | _ => .exn
      | .other => .ok r
  else
    match value with
    | .obj o => .ok { r with value := some (.obj o), fwdCache := o.fwdCache }
    | .tensor _ => .exn

/-- `ResultMetric.compute()`: mean → `sum(value) / sum(cumulated_batch_size)`
(`sum` of a scalar is itself), max/min → the accumulator, any other tensor
reduction → `MisconfigurationException`; metric-object → delegate to the
object's own `compute` (raising when the `value` attribute is absent or does
not hold a metric object). -/
def ResultMetric.compute (r : ResultMetric) : PyRes Val :=
  if r.is_tensor then
    match r.meta.reduce_fx with
    | .mean =>
      match r.value with
      | some (.tensor a) => .ok (a / r.cumulated_batch_size)
      | _ => .exn
    | .max | .min =>
      match r.value with
      | some (.tensor a) => .ok a
      | _ => .exn
    | .other => .exn
  else
    match r.value with
    | some (.obj o) => .ok o.computeVal
    | _ => .exn

/-- `ResultMetric.reset()`: for tensors, `super().reset()` restores the
registered defaults (`value = 0`, `cumulated_batch_size = 0`) and clears the
`_computed` cache; for metric objects, delegate to the object's `reset` (a
missing or tensor-valued `value` attribute would raise in Python and is left
unchanged here).  Both set `meta.has_reset`. -/
def ResultMetric.reset (r : ResultMetric) : ResultMetric :=
  if r.is_tensor then
    { r with value := some (.tensor 0)
             cumulated_batch_size := 0
             computed := none
             meta := { r.meta with has_reset := true } }
  else
    { r with value := match r.value with
               | some (.obj o) => some (.obj o.reset)
               | v => v
             meta := { r.meta with has_reset := true } }

/-- Per-batch value produced by the torchmetrics forward pass when
`compute_on_step` holds: the reduction applied to this batch alone, starting
from the registered defaults (`0`). -/
def batchLocalValue (meta : Metadata) (t : List Val) (batch_size : Val) : PyRes Val :=
  match meta.reduce_fx with
  | .mean => .ok (tmean t * batch_size / batch_size)
  | .max => .ok (Max.max 0 (tmean t))
  | .min => .ok (Min.min 0 (tmean t))
  | .other => .exn

/-- `ResultMetric.forward` (via `Metric.__call__`): `update` the accumulator;
when `compute_on_step` (tensor accumulators), additionally cache the
batch-local value in `_forward_cache`.  For metric objects the overridden
`forward` keeps the cache that `update` copied from the logged object. -/
def ResultMetric.forward (r : ResultMetric) (value : LoggedVal) (batch_size : Val) :
    PyRes ResultMetric :=
  match r.update value batch_size with
  | .exn => .exn
  | .ok r' =>
    if r'.is_tensor then
      match value with
      | .tensor t =>
        match batchLocalValue r'.meta t batch_size with
        | .exn => .exn
        | .ok v => .ok { r' with fwdCache := some v }
      | .obj _ => .exn
    else .ok r'

/-! ## result.py: ResultCollection

The collection is embedded at leaf granularity: each storage key holds one
`ResultMetric` (a logged single tensor or metric object).  Nested
mapping/sequence values, their side-channel metadata keys (`key+'.forked'`
etc.), the `'extra'` entry, `minimize` and device placement are outside the
modelled fragment; every claim below quantifies over leaf accumulators.
Python dictionaries are embedded as insertion-ordered association lists. -/

/-- First value stored under `k` (Python `d[k]` read / `k in d` test). -/
def assocFind {α : Type} (l : List (PyStr × α)) (k : PyStr) : Option α :=
  match l with
  | [] => none
  | (k', v) :: t => if k = k' then some v else assocFind t k

/-- Python `d[k] = v` on an insertion-ordered dictionary: replace in place
when the key exists, append otherwise. -/
def assocSet {α : Type} (l : List (PyStr × α)) (k : PyStr) (v : α) : List (PyStr × α) :=
  match l with
  | [] => [(k, v)]
  | (k', v') :: t => if k = k' then (k, v) :: t else (k', v') :: assocSet t k v

/-- `ResultCollection` state: the typed attributes plus the owned mapping
from storage key to accumulator. -/
structure ResultCollection where
  training : Bool
  on_epoch_end_reached : Bool := false
  current_fx : Option PyStr := none
  batch_size : Val := 1
  batch_idx : Option Nat := none
  entries : List (PyStr × ResultMetric) := []
  deriving DecidableEq, Repr

/-- `ResultCollection.__init__(training, device)`. -/
def mkResultCollection (training : Bool) : ResultCollection :=
  { training := training }

/-- `ResultCollection.should_reset_tensors(fx)`: the hook changed since the
previous `log` call and the within-epoch batch index is `None` or `0`. -/
def ResultCollection.should_reset_tensors (c : ResultCollection) (fx : PyStr) : Bool :=
  decide (c.current_fx ≠ some fx) && decide (c.batch_idx = none ∨ c.batch_idx = some 0)

/-- `ResultCollection._reset(fx, metrics)`: reset every stored accumulator
whose kind is requested (`metrics is None or metrics ^ item.is_tensor`) and
whose hook matches (`fx is None or fx == item.meta.fx`). -/
def ResultCollection._reset (c : ResultCollection) (fx : Option PyStr) (metrics : Option Bool) :
    ResultCollection :=
  { c with entries := c.entries.map fun p =>
      let requested_type := metrics.isNone || Bool.xor (metrics.getD false) p.2.is_tensor
      let same_fx := fx.isNone || decide (fx = some p.2.meta.fx)
      if requested_type && same_fx then (p.1, p.2.reset) else p }

/-- The reset step inside `ResultCollection.log`: when `should_reset_tensors`
fires, `_reset(fx, metrics=False)`. -/
def ResultCollection.logReset (c : ResultCollection) (fx : PyStr) : ResultCollection :=
  if c.should_reset_tensors fx then c._reset (some fx) (some false) else c

/-- `ResultCollection.reset(metrics)`: reset accumulators of the requested
kind across all hooks, clear `on_epoch_end_reached` (whose setter also clears
`batch_idx`) and the active-hook marker. -/
def ResultCollection.reset (c : ResultCollection) (metrics : Option Bool) : ResultCollection :=
  { c._reset none metrics with
      on_epoch_end_reached := false
      batch_idx := none
      current_fx := none }

/-- `ResultCollection.update_metrics(key, value, batch_size)`: feed the value
through the stored accumulator's forward pass and clear its `has_reset`
marker.  A missing key raises (`log` always creates it first). -/
def ResultCollection.update_metrics (c : ResultCollection) (key : PyStr) (value : LoggedVal)
    (batch_size : Option Val) : PyRes ResultCollection :=
  let bs := batch_size.getD c.batch_size
  match assocFind c.entries key with
  | none => .exn
  | some r =>
    match r.forward value bs with
    | .exn => .exn
    | .ok r' =>
      let r'' := { r' with meta := { r'.meta with has_reset := false } }
      .ok { c with entries := assocSet c.entries key r'' }

/-- `ResultCollection.log(fx, name, value, ...)`: reject `on_step` logging
after the epoch boundary, build the (dataloader-qualified) storage key and
reset-scope hook, create the accumulator on first use, reset tensor
accumulators of the new hook when `should_reset_tensors` fires, feed the
value in, and record the active hook.  Tensor detaching and device moves are
identities in this embedding. -/
def ResultCollection.log (c : ResultCollection) (fx name : PyStr) (value : LoggedVal)
    (prog_bar : Bool := false) (logger : Bool := true)
    (on_step : Bool := false) (on_epoch : Bool := true)
    (reduce_fx : ReduceFx := .mean) (dataloader_idx : Option Nat := none)
    (batch_size : Option Val := none) (metric_attribute : Option PyStr := none) :
    PyRes ResultCollection :=
  if on_step && c.on_epoch_end_reached then .exn
  else
    let key := fx ++ '.' :: name
    let key := match dataloader_idx with
      | none => key
      | some i => key ++ '.' :: Nat.toDigits 10 i
    let fx := match dataloader_idx with
      | none => fx
      | some i => fx ++ '.' :: Nat.toDigits 10 i
    let c :=
      if (assocFind c.entries key).isNone then
        let meta : Metadata :=
          { fx := fx, name := name, prog_bar := prog_bar, logger := logger
            on_step := on_step, on_epoch := on_epoch, reduce_fx := reduce_fx
            dataloader_idx := dataloader_idx, metric_attribute := metric_attribute }
        let is_tensor := match value with
          | .tensor _ => true
          | .obj _ => false
        { c with entries := assocSet c.entries key (mkResultMetric meta is_tensor) }
      else c
    let c := c.logReset fx
    match c.update_metrics key value batch_size with
    | .exn => .exn
    | .ok c => .ok { c with current_fx := some fx }

/-! ### Metric views -/

/-- The per-dataloader display-name suffix `DATALOADER_SUFFIX.format(idx)`. -/
def dlSuffix (m : Metadata) : PyStr :=
  match m.dataloader_idx with
  | none => []
  | some i => ("/dataloader_idx_").data ++ Nat.toDigits 10 i

/-- Base display name produced by `_extract_metadata`. -/
def extractName (r : ResultMetric) : PyStr := r.meta.name ++ dlSuffix r.meta

/-- Forked display name produced by `_extract_metadata`. -/
def extractForkedName (r : ResultMetric) (on_step : Bool) : PyStr :=
  r.meta.forked_name on_step ++ dlSuffix r.meta

/-- `ResultCollection._get_forward_cache`: the step-view value, present only
for a metric logged with `on_step`.  (A missing `_forward_cache` would raise
on `.detach()` in Python; the claims only touch entries with a cache.) -/
def getForwardCache (r : ResultMetric) : Option Val :=
  if r.meta.on_step then r.fwdCache else none

/-- Python truthiness of the `_computed` cache as tested by
`if not result_metric._computed`: `None` and the scalar tensor `0` are both
falsy, so a cached zero is recomputed. -/
def pyFalsy (x : Option Val) : Bool :=
  match x with
  | none => true
  | some v => decide (v = 0)

/-- `ResultCollection._get_computed_cache`: `None` for a metric not logged
with `on_epoch`; otherwise compute (and cache) lazily when the cache is
falsy, then return the cache.  Returns the (possibly updated) accumulator
alongside the value because the caching mutates it. -/
def getComputedCache (r : ResultMetric) : PyRes (Option Val × ResultMetric) :=
  if r.meta.on_epoch = false then .ok (none, r)
  else if pyFalsy r.computed then
    match r.compute with
    | .exn => .exn
    | .ok v => .ok (some v, { r with computed := some v })
  else .ok (r.computed, r)

/-- Value selection of `get_metrics`: forward cache on the step view,
computed cache on the epoch view. -/
def extractValue (on_step : Bool) (r : ResultMetric) : PyRes (Option Val × ResultMetric) :=
  if on_step then .ok (getForwardCache r, r) else getComputedCache r

/-- The three destination maps of `get_metrics` (`MetricSource.CALLBACK`,
`MetricSource.PBAR`, `MetricSource.LOG`). -/
structure MetricsMaps where
  callback : List (PyStr × Val)
  pbar : List (PyStr × Val)
  logMap : List (PyStr × Val)
  deriving DecidableEq, Repr

/-- Empty destination maps. -/
def emptyMaps : MetricsMaps := ⟨[], [], []⟩

/-- Body of the `get_metrics` loop for one valid entry: select the value,
skip when it is empty, else route it — logger map under the forked name when
`meta.logger`; callback map under both the base and forked names when
`self.training or metric_on_epoch and not on_step`; progress-bar map under
the forked name when `meta.prog_bar`. -/
def processEntry (training on_step : Bool) (maps : MetricsMaps) (r : ResultMetric) :
    PyRes (MetricsMaps × ResultMetric) :=
  match extractValue on_step r with
  | .exn => .exn
  | .ok (none, r') => .ok (maps, r')
  | .ok (some v, r') =>
    let name := extractName r'
    let name_forked := extractForkedName r' on_step
    let maps := if r'.meta.logger
      then { maps with logMap := assocSet maps.logMap name_forked v } else maps
    let maps := if training || (r'.meta.on_epoch && !on_step)
      then { maps with callback := assocSet (assocSet maps.callback name v) name_forked v }
      else maps
    let maps := if r'.meta.prog_bar
      then { maps with pbar := assocSet maps.pbar name_forked v } else maps
    .ok (maps, r')

/-- The `get_metrics` iteration over `valid_items()`: entries whose metadata
carries `has_reset` are skipped (and left untouched); the rest are processed
in order, threading the destination maps and the lazily-computed caches. -/
def getMetricsGo (training on_step : Bool) :
    List (PyStr × ResultMetric) → MetricsMaps → PyRes (MetricsMaps × List (PyStr × ResultMetric))
  | [], maps => .ok (maps, [])
  | (k, r) :: rest, maps =>
    if r.meta.has_reset then
      match getMetricsGo training on_step rest maps with
      | .exn => .exn
      | .ok (m, rs) => .ok (m, (k, r) :: rs)
    else
      match processEntry training on_step maps r with
      | .exn => .exn
      | .ok (maps', r') =>
        match getMetricsGo training on_step rest maps' with
        | .exn => .exn
        | .ok (m, rs) => .ok (m, (k, r') :: rs)

/-- `ResultCollection.get_metrics(on_step)`. -/
def ResultCollection.get_metrics (c : ResultCollection) (on_step : Bool) :
    PyRes (MetricsMaps × ResultCollection) :=
  match getMetricsGo c.training on_step c.entries emptyMaps with
  | .exn => .exn
  | .ok (m, es) => .ok (m, { c with entries := es })

/-- `ResultCollection.get_batch_metrics()`. -/
def ResultCollection.get_batch_metrics (c : ResultCollection) :
    PyRes (MetricsMaps × ResultCollection) :=
  c.get_metrics true

/-- `ResultCollection.get_epoch_metrics()`. -/
def ResultCollection.get_epoch_metrics (c : ResultCollection) :
    PyRes (MetricsMaps × ResultCollection) :=
  c.get_metrics false

/-! ### Serialization -/

/-- `_SerializationHelper`: the tagged record wrapping one serialized leaf
`ResultMetric` (`item.__getstate__()` captures the whole state; this is an
in-memory round trip, so held references survive). -/
structure SerializationHelper where
  state : ResultMetric
  deriving DecidableEq, Repr

/-- `ResultCollection.state_dict()` restricted to the modelled entries. -/
def ResultCollection.state_dict (c : ResultCollection) : List (PyStr × SerializationHelper) :=
  c.entries.map fun p => (p.1, ⟨p.2⟩)

/-- `ResultCollection.load_from_state_dict(state_dict, metrics)`: rebuild
each leaf (`ResultMetric(meta, is_tensor)` then `__dict__.update(item)` is
the identity on the captured state), store it under its key, and — when a
non-empty live-metric mapping is supplied — overwrite the `value` attribute
of every stored accumulator whose recorded `metric_attribute` appears in the
mapping. -/
def ResultCollection.load_from_state_dict (c : ResultCollection)
    (sd : List (PyStr × SerializationHelper)) (metrics : List (PyStr × MetricObj)) :
    ResultCollection :=
  let c := { c with entries :=
    (sd.map fun p => (p.1, p.2.state)).foldl (fun es p => assocSet es p.1 p.2) c.entries }
  if metrics.isEmpty then c
  else
    { c with entries := c.entries.map fun p =>
        (p.1, match p.2.meta.metric_attribute with
          | some n =>
            match assocFind metrics n with
            | some o => { p.2 with value := some (.obj o) }
            | none => p.2
          | none => p.2) }

/-! ### Reference expressions used to state the claims -/

/-- Fold a sequence of `update` calls (the accumulation path of repeated
`log` calls) over an accumulator. -/
def applyCalls (r : ResultMetric) : List (List Val × Val) → PyRes ResultMetric
  | [] => .ok r
  | c :: cs =>
    match r.update (.tensor c.1) c.2 with
    | .exn => .exn
    | .ok r' => applyCalls r' cs

/-- `compute()` after a sequence of `update` calls. -/
def computeAfter (r : ResultMetric) (calls : List (List Val × Val)) : PyRes Val :=
  match applyCalls r calls with
  | .exn => .exn
  | .ok r' => r'.compute

/-- Batch-size-weighted sum of the per-call tensor means. -/
def weightedSum (calls : List (List Val × Val)) : Val :=
  (calls.map fun c => tmean c.1 * c.2).sum

/-- Total batch size of a call sequence. -/
def batchSum (calls : List (List Val × Val)) : Val :=
  (calls.map Prod.snd).sum

/-- Running maximum of the per-call tensor means, from a starting value. -/
def runMax (a : Val) (calls : List (List Val × Val)) : Val :=
  calls.foldl (fun acc c => Max.max acc (tmean c.1)) a

/-- Running minimum of the per-call tensor means, from a starting value. -/
def runMin (a : Val) (calls : List (List Val × Val)) : Val :=
  calls.foldl (fun acc c => Min.min acc (tmean c.1)) a

/-- The caller-supplied live-metric mapping agrees with an accumulator: if
the accumulator's recorded `metric_attribute` occurs in the mapping, the
mapped object is the one the accumulator already holds.  This is the
decidable hypothesis under which `load_from_state_dict` re-attachment is the
identity (the in-memory round trip loses nothing). -/
def reattachAgrees (metrics : List (PyStr × MetricObj)) (e : ResultMetric) : Bool :=
  match e.meta.metric_attribute with
  | some n =>
    match assocFind metrics n with
    | some o => decide (e.value = some (.obj o))
    | none => true
  | none => true

/-! ## Claims about the checkpoint connector -/

/-- C2.  `restore_progress` sets the trainer's `global_step` and
`current_epoch` verbatim from the loaded checkpoint; `dump_checkpoint`
always saves `global_step + 1` and, whenever the configured maximum step
count has not been reached (in particular whenever `max_steps` is unset),
`current_epoch + 1`; hence restoring `{epoch: 4, global_step: 100}` under
`max_steps = None` and dumping before any further training yields
`{epoch: 5, global_step: 101}`. -/
theorem C2_resume_determinism :
    (∀ (t : TrainerState) (ck : Checkpoint),
      (restore_progress t (some ck)).trainer.global_step = ck.global_step ∧
      (restore_progress t (some ck)).trainer.current_epoch = ck.epoch) ∧
    (∀ t : TrainerState, (dump_checkpoint t).global_step = t.global_step + 1) ∧
    (∀ t : TrainerState,
      (t.max_steps = none ∨ ∃ m, t.max_steps = some m ∧ t.global_step < m) →
      (dump_checkpoint t).epoch = t.current_epoch + 1) ∧
    ((restore_progress ⟨0, 0, none, none, 0, none⟩ (some ⟨4, 100⟩)).error = none ∧
     (restore_progress ⟨0, 0, none, none, 0, none⟩ (some ⟨4, 100⟩)).trainer.current_epoch = 4 ∧
     (restore_progress ⟨0, 0, none, none, 0, none⟩ (some ⟨4, 100⟩)).trainer.global_step = 100 ∧
     dump_checkpoint (restore_progress ⟨0, 0, none, none, 0, none⟩ (some ⟨4, 100⟩)).trainer
       = ⟨5, 101⟩) := by
  refine ⟨?_, ?_, ?_, by decide⟩
  · intro t ck
    unfold restore_progress
    dsimp only
    split <;> exact ⟨rfl, rfl⟩
  · intro t
    rfl
  · intro t h
    rcases h with h | ⟨m, hm, hlt⟩
    · simp [dump_checkpoint, h]
    · have hnle : ¬ m ≤ t.global_step := Nat.not_le.mpr hlt
      simp [dump_checkpoint, hm, hnle]

/-- Witness for C2 at a concrete trainer state. -/
theorem C2_resume_determinism_witness :
    (dump_checkpoint ⟨100, 4, none, none, 0, none⟩).epoch = 5 ∧
    (dump_checkpoint ⟨100, 4, none, none, 0, none⟩).global_step = 101 ∧
    (restore_progress ⟨0, 0, none, none, 0, none⟩ (some ⟨4, 100⟩)).trainer.current_epoch = 4 :=
  ⟨C2_resume_determinism.2.2.1 ⟨100, 4, none, none, 0, none⟩ (Or.inl rfl),
   C2_resume_determinism.2.1 ⟨100, 4, none, none, 0, none⟩,
   (C2_resume_determinism.1 ⟨0, 0, none, none, 0, none⟩ ⟨4, 100⟩).2⟩

/-- C4 counterexample.  Restoring a checkpoint with `epoch = 5` into a
trainer configured with `max_epochs = 3` (pre-restore counters
`global_step = 7`, `current_epoch = 2`) raises the configuration-conflict
error, but the loop counters do NOT retain their pre-restore values: the
assignments happen before the check, so they already hold the checkpoint's
values when the exception propagates. -/
theorem C4_counterexample :
    (restore_progress ⟨7, 2, some 3, none, 0, none⟩ (some ⟨5, 50⟩)).error
      = some .misconfiguration ∧
    (restore_progress ⟨7, 2, some 3, none, 0, none⟩ (some ⟨5, 50⟩)).trainer.current_epoch = 5 ∧
    (restore_progress ⟨7, 2, some 3, none, 0, none⟩ (some ⟨5, 50⟩)).trainer.global_step = 50 ∧
    ¬((restore_progress ⟨7, 2, some 3, none, 0, none⟩ (some ⟨5, 50⟩)).trainer.current_epoch = 2 ∧
      (restore_progress ⟨7, 2, some 3, none, 0, none⟩ (some ⟨5, 50⟩)).trainer.global_step = 7) := by
  decide

/-- C4 (amended).  When the checkpoint's recorded epoch exceeds the
configured `max_epochs` ceiling, `restore_progress` raises the
configuration-conflict error, and the trainer's loop counters are left
holding the checkpoint's values (the mutation precedes the check and is not
rolled back). -/
theorem C4_restore_error_mutates (t : TrainerState) (ck : Checkpoint) (me : Nat)
    (hme : t.max_epochs = some me) (hgt : me < ck.epoch) :
    (restore_progress t (some ck)).error = some .misconfiguration ∧
    (restore_progress t (some ck)).trainer.current_epoch = ck.epoch ∧
    (restore_progress t (some ck)).trainer.global_step = ck.global_step := by
  unfold restore_progress
  simp [hme, hgt]

/-- Witness for the amended C4. -/
theorem C4_restore_error_mutates_witness :
    (restore_progress ⟨7, 2, some 3, none, 0, none⟩ (some ⟨5, 50⟩)).error
      = some .misconfiguration ∧
    (restore_progress ⟨7, 2, some 3, none, 0, none⟩ (some ⟨5, 50⟩)).trainer.current_epoch = 5 ∧
    (restore_progress ⟨7, 2, some 3, none, 0, none⟩ (some ⟨5, 50⟩)).trainer.global_step = 50 :=
  C4_restore_error_mutates ⟨7, 2, some 3, none, 0, none⟩ ⟨5, 50⟩ 3 rfl (by decide)

/-- C6 counterexample.  The code scans for the substring `'ckpt_'`, not for
files of the form `hpc_ckpt_N.ckpt`: in a directory containing only
`my_ckpt_9.ckpt` (which carries no `hpc_ckpt_N` index, so the claim predicts
index `max(∅, default 0) + 1 = 1`), `hpc_save` writes `hpc_ckpt_10.ckpt`. -/
theorem C6_counterexample :
    hpc_save ("ckpts").data (some [("my_ckpt_9.ckpt").data])
      = .ok (("ckpts/hpc_ckpt_10.ckpt").data) ∧
    specHpcNextIndex [("my_ckpt_9.ckpt").data] = 1 ∧
    (("ckpts/hpc_ckpt_10.ckpt").data : PyStr) ≠ ("ckpts/hpc_ckpt_1.ckpt").data := by
  decide

/-- C6 (amended).  `hpc_save` indexes from all files containing the
substring `'ckpt_'` (parsing the digits after its last occurrence), which on
directories whose matching files are genuine `hpc_ckpt_N` checkpoints equals
`max(existing hpc_ckpt_N indices, default 0) + 1`: an empty directory yields
`hpc_ckpt_1.ckpt`; a directory with `hpc_ckpt_3.ckpt`, `hpc_ckpt_7.ckpt` and
the unrelated `other_2.ckpt` yields `hpc_ckpt_8.ckpt`, and before that save
`get_max_ckpt_path_from_folder` resolves to the path with index 7. -/
theorem C6_hpc_rotation_examples :
    hpc_save ("ckpts").data (some []) = .ok (("ckpts/hpc_ckpt_1.ckpt").data) ∧
    hpc_save ("ckpts").data
        (some [("hpc_ckpt_3.ckpt").data, ("hpc_ckpt_7.ckpt").data, ("other_2.ckpt").data])
      = .ok (("ckpts/hpc_ckpt_8.ckpt").data) ∧
    get_max_ckpt_path_from_folder ("ckpts").data
        (some [("hpc_ckpt_3.ckpt").data, ("hpc_ckpt_7.ckpt").data, ("other_2.ckpt").data])
      = .ok (("ckpts/hpc_ckpt_7.ckpt").data) ∧
    specHpcNextIndex
        [("hpc_ckpt_3.ckpt").data, ("hpc_ckpt_7.ckpt").data, ("other_2.ckpt").data] = 8 := by
  decide

/-- C10.  On an absent folder, or a folder none of whose files contain the
checkpoint name key, `max_ckpt_in_folder` returns `None`, yet
`get_max_ckpt_path_from_folder` still returns the concrete path
`'{folder}/hpc_ckpt_0.ckpt'` — a file that is not among the folder's
entries — rather than signalling absence. -/
theorem C10_path_for_missing_ckpt (folder : PyStr) (files : List PyStr)
    (hnone : ∀ f ∈ files, pyContains f defaultNameKey = false) :
    max_ckpt_in_folder none defaultNameKey = .ok none ∧
    max_ckpt_in_folder (some files) defaultNameKey = .ok none ∧
    get_max_ckpt_path_from_folder folder none
      = .ok (folder ++ ("/hpc_ckpt_0.ckpt").data) ∧
    get_max_ckpt_path_from_folder folder (some files)
      = .ok (folder ++ ("/hpc_ckpt_0.ckpt").data) ∧
    ("hpc_ckpt_0.ckpt").data ∉ files := by
  have hfilter : files.filter (fun x => pyContains x defaultNameKey) = [] := by
    rw [List.filter_eq_nil_iff]
    intro a ha
    simp [hnone a ha]
  have hmax : max_ckpt_in_folder (some files) defaultNameKey = .ok none := by
    unfold max_ckpt_in_folder
    dsimp only
    rw [hfilter]
  have happ : ∀ s : PyStr,
      s ++ ("/hpc_ckpt_").data ++ Nat.toDigits 10 0 ++ (".ckpt").data
        = s ++ ("/hpc_ckpt_0.ckpt").data := by
    intro s
    rw [List.append_assoc, List.append_assoc, ← List.append_assoc (("/hpc_ckpt_").data)]
    exact congrArg (s ++ ·) (by decide)
  refine ⟨rfl, hmax, ?_, ?_, ?_⟩
  · show PyRes.ok (folder ++ ("/hpc_ckpt_").data ++ Nat.toDigits 10 0 ++ (".ckpt").data) = _
    rw [happ]
  · unfold get_max_ckpt_path_from_folder
    rw [hmax]
    show PyRes.ok (folder ++ ("/hpc_ckpt_").data ++ Nat.toDigits 10 0 ++ (".ckpt").data) = _
    rw [happ]
  · intro hmem
    have h := hnone _ hmem
    have ht : pyContains (("hpc_ckpt_0.ckpt").data) defaultNameKey = true := by decide
    rw [h] at ht
    exact Bool.false_ne_true ht

/-- Witness for C10 on a folder holding one unrelated file. -/
theorem C10_path_for_missing_ckpt_witness :
    max_ckpt_in_folder (some [("model.bin").data]) defaultNameKey = .ok none ∧
    get_max_ckpt_path_from_folder ("dir").data (some [("model.bin").data])
      = .ok (("dir").data ++ ("/hpc_ckpt_0.ckpt").data) ∧
    ("hpc_ckpt_0.ckpt").data ∉ [("model.bin").data] :=
  ⟨(C10_path_for_missing_ckpt ("dir").data [("model.bin").data] (by decide)).2.1,
   (C10_path_for_missing_ckpt ("dir").data [("model.bin").data] (by decide)).2.2.2.1,
   (C10_path_for_missing_ckpt ("dir").data [("model.bin").data] (by decide)).2.2.2.2⟩

/-! ## Claims about ResultMetric reductions -/

theorem reset_tensor (r : ResultMetric) (ht : r.is_tensor = true) :
    r.reset = { r with value := some (.tensor 0)
                       cumulated_batch_size := 0
                       computed := none
                       meta := { r.meta with has_reset := true } } := by
  unfold ResultMetric.reset
  rw [ht]
  simp

theorem compute_mean (r : ResultMetric) (a : Val) (ht : r.is_tensor = true)
    (hred : r.meta.reduce_fx = .mean) (hv : r.value = some (.tensor a)) :
    r.compute = .ok (a / r.cumulated_batch_size) := by
  simp [ResultMetric.compute, ht, hred, hv]

theorem applyCalls_mean (calls : List (List Val × Val)) :
    ∀ (r : ResultMetric) (a : Val), r.is_tensor = true → r.meta.reduce_fx = .mean →
    r.value = some (.tensor a) →
    applyCalls r calls
      = .ok { r with value := some (.tensor (a + weightedSum calls))
                     cumulated_batch_size := r.cumulated_batch_size + batchSum calls } := by
  induction calls with
  | nil =>
    intro r a ht hred hv
    obtain ⟨meta, it, val, cum, fc, comp⟩ := r
    simp only at hv
    subst hv
    simp [applyCalls, weightedSum, batchSum]
  | cons c cs ih =>
    intro r a ht hred hv
    have hupd : r.update (.tensor c.1) c.2
        = .ok { r with value := some (.tensor (a + tmean c.1 * c.2))
                       cumulated_batch_size := r.cumulated_batch_size + c.2 } := by
      simp [ResultMetric.update, ht, hred, hv]
    rw [applyCalls, hupd]
    show applyCalls _ cs = _
    rw [ih { r with value := some (.tensor (a + tmean c.1 * c.2))
                    cumulated_batch_size := r.cumulated_batch_size + c.2 }
          (a + tmean c.1 * c.2) ht hred rfl]
    simp [weightedSum, batchSum, add_assoc]

theorem computeAfter_mean (calls : List (List Val × Val)) (r : ResultMetric) (a : Val)
    (ht : r.is_tensor = true) (hred : r.meta.reduce_fx = .mean)
    (hv : r.value = some (.tensor a)) :
    computeAfter r calls
      = .ok ((a + weightedSum calls) / (r.cumulated_batch_size + batchSum calls)) := by
  unfold computeAfter
  rw [applyCalls_mean calls r a ht hred hv]
  exact compute_mean _ (a + weightedSum calls) ht hred rfl

/-- C1.  For every sequence of update calls on a fresh (or just reset)
tensor-valued mean-reduction `ResultMetric`, each supplying a non-empty
tensor and a positive batch size, `compute()` returns the batch-size-weighted
arithmetic mean of the per-call tensor means (`weightedSum / batchSum`, with
a positive total weight), regardless of how batch sizes vary across calls. -/
theorem C1_mean_weighted (calls : List (List Val × Val))
    (hne : calls ≠ []) (hpos : ∀ c ∈ calls, c.1 ≠ [] ∧ 0 < c.2) :
    0 < batchSum calls ∧
    (∀ m : Metadata, m.reduce_fx = .mean →
      computeAfter (mkResultMetric m true) calls
        = .ok (weightedSum calls / batchSum calls)) ∧
    (∀ r : ResultMetric, r.is_tensor = true → r.meta.reduce_fx = .mean →
      computeAfter r.reset calls = .ok (weightedSum calls / batchSum calls)) := by
  refine ⟨?_, ?_, ?_⟩
  · refine List.sum_pos _ ?_ ?_
    · intro x hx
      obtain ⟨c, hc, rfl⟩ := List.mem_map.mp hx
      exact (hpos c hc).2
    · intro h
      exact hne (List.map_eq_nil_iff.mp h)
  · intro m hred
    rw [computeAfter_mean calls (mkResultMetric m true) 0 rfl hred rfl]
    simp [mkResultMetric]
  · intro r ht hred
    rw [reset_tensor r ht]
    rw [computeAfter_mean calls
          { r with value := some (.tensor 0)
                   cumulated_batch_size := 0
                   computed := none
                   meta := { r.meta with has_reset := true } }
          0 ht hred rfl]
    simp

/-- Witness for C1: two calls, means 2 and 5, batch sizes 2 and 3, weighted
mean `19/5`. -/
theorem C1_mean_weighted_witness :
    computeAfter (mkResultMetric { fx := ("f").data, name := ("n").data } true)
        [([1, 3], 2), ([5], 3)] = .ok (19 / 5) := by
  rw [(C1_mean_weighted [([1, 3], 2), ([5], 3)] (by decide) (by decide)).2.1
      { fx := ("f").data, name := ("n").data } rfl]
  norm_num [weightedSum, batchSum, tmean]

theorem compute_max (r : ResultMetric) (a : Val) (ht : r.is_tensor = true)
    (hred : r.meta.reduce_fx = .max) (hv : r.value = some (.tensor a)) :
    r.compute = .ok a := by
  simp [ResultMetric.compute, ht, hred, hv]

theorem compute_min (r : ResultMetric) (a : Val) (ht : r.is_tensor = true)
    (hred : r.meta.reduce_fx = .min) (hv : r.value = some (.tensor a)) :
    r.compute = .ok a := by
  simp [ResultMetric.compute, ht, hred, hv]

theorem applyCalls_max (calls : List (List Val × Val)) :
    ∀ (r : ResultMetric) (a : Val), r.is_tensor = true → r.meta.reduce_fx = .max →
    r.value = some (.tensor a) →
    applyCalls r calls = .ok { r with value := some (.tensor (runMax a calls)) } := by
  induction calls with
  | nil =>
    intro r a ht hred hv
    obtain ⟨meta, it, val, cum, fc, comp⟩ := r
    simp only at hv
    subst hv
    simp [applyCalls, runMax]
  | cons c cs ih =>
    intro r a ht hred hv
    have hupd : r.update (.tensor c.1) c.2
        = .ok { r with value := some (.tensor (Max.max a (tmean c.1))) } := by
      simp [ResultMetric.update, ht, hred, hv]
    rw [applyCalls, hupd]
    show applyCalls _ cs = _
    rw [ih { r with value := some (.tensor (Max.max a (tmean c.1))) }
          (Max.max a (tmean c.1)) ht hred rfl]
    rfl

theorem applyCalls_min (calls : List (List Val × Val)) :
    ∀ (r : ResultMetric) (a : Val), r.is_tensor = true → r.meta.reduce_fx = .min →
    r.value = some (.tensor a) →
    applyCalls r calls = .ok { r with value := some (.tensor (runMin a calls)) } := by
  induction calls with
  | nil =>
    intro r a ht hred hv
    obtain ⟨meta, it, val, cum, fc, comp⟩ := r
    simp only at hv
    subst hv
    simp [applyCalls, runMin]
  | cons c cs ih =>
    intro r a ht hred hv
    have hupd : r.update (.tensor c.1) c.2
        = .ok { r with value := some (.tensor (Min.min a (tmean c.1))) } := by
      simp [ResultMetric.update, ht, hred, hv]
    rw [applyCalls, hupd]
    show applyCalls _ cs = _
    rw [ih { r with value := some (.tensor (Min.min a (tmean c.1))) }
          (Min.min a (tmean c.1)) ht hred rfl]
    rfl

theorem computeAfter_max (calls : List (List Val × Val)) (r : ResultMetric) (a : Val)
    (ht : r.is_tensor = true) (hred : r.meta.reduce_fx = .max)
    (hv : r.value = some (.tensor a)) :
    computeAfter r calls = .ok (runMax a calls) := by
  unfold computeAfter
  rw [applyCalls_max calls r a ht hred hv]
  exact compute_max _ (runMax a calls) ht hred rfl

theorem computeAfter_min (calls : List (List Val × Val)) (r : ResultMetric) (a : Val)
    (ht : r.is_tensor = true) (hred : r.meta.reduce_fx = .min)
    (hv : r.value = some (.tensor a)) :
    computeAfter r calls = .ok (runMin a calls) := by
  unfold computeAfter
  rw [applyCalls_min calls r a ht hred hv]
  exact compute_min _ (runMin a calls) ht hred rfl

/-- C5 counterexample.  A single update with per-call value `-1` (the mean of
the logged tensor) on a fresh max-reduction accumulator computes `0`, not the
running maximum `-1` of the per-call values: the accumulator starts from the
scalar tensor `0`, which participates in the extremum.  Dually for min with
per-call value `1`. -/
theorem C5_counterexample :
    computeAfter
        (mkResultMetric { fx := ("f").data, name := ("n").data, reduce_fx := .max } true)
        [([-1], 1)] = .ok 0 ∧
    tmean [-1] = -1 ∧
    computeAfter
        (mkResultMetric { fx := ("f").data, name := ("n").data, reduce_fx := .min } true)
        [([1], 1)] = .ok 0 ∧
    tmean [1] = 1 ∧
    (0 : Val) ≠ -1 ∧ (0 : Val) ≠ 1 := by
  have hm : tmean [(-1 : Val)] = -1 := by norm_num [tmean]
  have hp : tmean [(1 : Val)] = 1 := by norm_num [tmean]
  refine ⟨?_, hm, ?_, hp, by norm_num, by norm_num⟩
  · rw [computeAfter_max [([-1], 1)]
        (mkResultMetric { fx := ("f").data, name := ("n").data, reduce_fx := .max } true)
        0 rfl rfl rfl]
    simp [runMax, hm]
  · rw [computeAfter_min [([1], 1)]
        (mkResultMetric { fx := ("f").data, name := ("n").data, reduce_fx := .min } true)
        0 rfl rfl rfl]
    simp [runMin, hp]

/-- C5 (amended).  For every sequence of update calls on a fresh (or just
reset) tensor-valued max- (resp. min-) reduction `ResultMetric`, each call
logging a non-empty tensor, `compute()` returns the running maximum (resp.
minimum) of the per-call tensor means *together with the accumulator's
initial value `0`*, i.e. `max(0, values…)` (resp. `min(0, values…)`). -/
theorem C5_extremum_with_zero (calls : List (List Val × Val))
    (hts : ∀ c ∈ calls, c.1 ≠ []) :
    (∀ m : Metadata, m.reduce_fx = .max →
      computeAfter (mkResultMetric m true) calls = .ok (runMax 0 calls)) ∧
    (∀ m : Metadata, m.reduce_fx = .min →
      computeAfter (mkResultMetric m true) calls = .ok (runMin 0 calls)) ∧
    (∀ r : ResultMetric, r.is_tensor = true → r.meta.reduce_fx = .max →
      computeAfter r.reset calls = .ok (runMax 0 calls)) ∧
    (∀ r : ResultMetric, r.is_tensor = true → r.meta.reduce_fx = .min →
      computeAfter r.reset calls = .ok (runMin 0 calls)) := by
  refine ⟨?_, ?_, ?_, ?_⟩
  · intro m hred
    exact computeAfter_max calls (mkResultMetric m true) 0 rfl hred rfl
  · intro m hred
    exact computeAfter_min calls (mkResultMetric m true) 0 rfl hred rfl
  · intro r ht hred
    rw [reset_tensor r ht]
    exact computeAfter_max calls
      { r with value := some (.tensor 0)
               cumulated_batch_size := 0
               computed := none
               meta := { r.meta with has_reset := true } }
      0 ht hred rfl
  · intro r ht hred
    rw [reset_tensor r ht]
    exact computeAfter_min calls
      { r with value := some (.tensor 0)
               cumulated_batch_size := 0
               computed := none
               meta := { r.meta with has_reset := true } }
      0 ht hred rfl

/-- Witness for the amended C5: per-call values 2 then -1 under max give
`max(0, 2, -1) = 2`. -/
theorem C5_extremum_with_zero_witness :
    computeAfter
        (mkResultMetric { fx := ("f").data, name := ("n").data, reduce_fx := .max } true)
        [([2], 1), ([-1], 1)] = .ok 2 := by
  rw [(C5_extremum_with_zero [([2], 1), ([-1], 1)] (by decide)).1
      { fx := ("f").data, name := ("n").data, reduce_fx := .max } rfl]
  have h2 : tmean [(2 : Val)] = 2 := by norm_num [tmean]
  have hm : tmean [(-1 : Val)] = -1 := by norm_num [tmean]
  simp [runMax, h2, hm]
  norm_num [max_def]

/-! ## Claims about ResultCollection -/

/-- C3.  On a `log` call whose (dataloader-qualified) hook differs from the
hook of the immediately preceding `log` call, arriving while the collection's
batch index is unset or zero, `should_reset_tensors` fires and the reset step
of `log` (`_reset(fx, metrics=False)`) resets exactly the tensor-kind
accumulators whose metadata hook equals the new hook — before the value is
fed in (`logReset` precedes `update_metrics` in `log`).  Metric-object
accumulators of every hook and tensor accumulators of every other hook are
mapped to themselves. -/
theorem C3_reset_scoping (c : ResultCollection) (fx : PyStr)
    (hfx : c.current_fx ≠ some fx) (hbi : c.batch_idx = none ∨ c.batch_idx = some 0) :
    c.should_reset_tensors fx = true ∧
    (c.logReset fx).entries = c.entries.map fun p =>
      if p.2.is_tensor && decide (p.2.meta.fx = fx) then (p.1, p.2.reset) else p := by
  have hg : c.should_reset_tensors fx = true := by
    simp only [ResultCollection.should_reset_tensors, Bool.and_eq_true, decide_eq_true_eq]
    exact ⟨hfx, hbi⟩
  refine ⟨hg, ?_⟩
  rw [ResultCollection.logReset, hg]
  simp only [if_true]
  unfold ResultCollection._reset
  dsimp only
  refine List.map_congr_left ?_
  intro p _
  by_cases ht : p.2.is_tensor
  · by_cases hf : p.2.meta.fx = fx
    · simp [ht, hf]
    · have hf' : ¬ fx = p.2.meta.fx := fun h => hf h.symm
      simp [ht, hf, hf']
  · by_cases hf : p.2.meta.fx = fx
    · simp [ht, hf]
    · simp [ht, hf]

/-- Witness for C3: switching from hook `train_step` to `val_step` at batch
index 0 resets only the `val_step` tensor accumulator. -/
theorem C3_reset_scoping_witness :
    ResultCollection.should_reset_tensors
      { training := true
        current_fx := some (("train_step").data)
        batch_idx := some 0
        entries := [((("train_step.a").data),
                      mkResultMetric { fx := ("train_step").data, name := ("a").data } true),
                    ((("train_step.m").data),
                      mkResultMetric { fx := ("train_step").data, name := ("m").data } false),
                    ((("val_step.b").data),
                      mkResultMetric { fx := ("val_step").data, name := ("b").data } true)] }
      (("val_step").data) = true ∧
    (ResultCollection.logReset
      { training := true
        current_fx := some (("train_step").data)
        batch_idx := some 0
        entries := [((("train_step.a").data),
                      mkResultMetric { fx := ("train_step").data, name := ("a").data } true),
                    ((("train_step.m").data),
                      mkResultMetric { fx := ("train_step").data, name := ("m").data } false),
                    ((("val_step.b").data),
                      mkResultMetric { fx := ("val_step").data, name := ("b").data } true)] }
      (("val_step").data)).entries
      = List.map
          (fun p => if p.2.is_tensor && decide (p.2.meta.fx = ("val_step").data)
            then (p.1, p.2.reset) else p)
          [((("train_step.a").data),
             mkResultMetric { fx := ("train_step").data, name := ("a").data } true),
           ((("train_step.m").data),
             mkResultMetric { fx := ("train_step").data, name := ("m").data } false),
           ((("val_step.b").data),
             mkResultMetric { fx := ("val_step").data, name := ("b").data } true)] :=
  C3_reset_scoping
    { training := true
      current_fx := some (("train_step").data)
      batch_idx := some 0
      entries := [((("train_step.a").data),
                    mkResultMetric { fx := ("train_step").data, name := ("a").data } true),
                  ((("train_step.m").data),
                    mkResultMetric { fx := ("train_step").data, name := ("m").data } false),
                  ((("val_step.b").data),
                    mkResultMetric { fx := ("val_step").data, name := ("b").data } true)] }
    (("val_step").data) (by decide) (Or.inr rfl)

theorem compute_set_computed (r : ResultMetric) (x : Option Val) :
    ResultMetric.compute { r with computed := x } = r.compute := rfl

theorem getComputedCache_idem (r : ResultMetric) :
    ∀ (v : Option Val) (r' : ResultMetric), getComputedCache r = .ok (v, r') →
      getComputedCache r' = .ok (v, r') ∧ r'.meta = r.meta := by
  intro v r' h
  unfold getComputedCache at h
  by_cases hoe : r.meta.on_epoch = false
  · rw [if_pos hoe] at h
    simp only [PyRes.ok.injEq, Prod.mk.injEq] at h
    obtain ⟨h1, h2⟩ := h
    subst h1
    subst h2
    unfold getComputedCache
    rw [if_pos hoe]
    exact ⟨rfl, rfl⟩
  · rw [if_neg hoe] at h
    by_cases hfal : pyFalsy r.computed = true
    · rw [if_pos hfal] at h
      cases hc : r.compute with
      | exn => rw [hc] at h; exact absurd h (by simp)
      | ok w =>
        rw [hc] at h
        simp only [PyRes.ok.injEq, Prod.mk.injEq] at h
        obtain ⟨h1, h2⟩ := h
        subst h1
        subst h2
        refine ⟨?_, rfl⟩
        unfold getComputedCache
        rw [if_neg hoe]
        by_cases hw : w = 0
        · subst hw
          rw [if_pos (by simp [pyFalsy])]
          rw [compute_set_computed, hc]
        · rw [if_neg (by simp [pyFalsy, hw])]
    · rw [if_neg hfal] at h
      simp only [PyRes.ok.injEq, Prod.mk.injEq] at h
      obtain ⟨h1, h2⟩ := h
      subst h1
      subst h2
      refine ⟨?_, rfl⟩
      unfold getComputedCache
      rw [if_neg hoe, if_neg hfal]

theorem extractValue_idem (os : Bool) (r : ResultMetric) :
    ∀ (v : Option Val) (r' : ResultMetric), extractValue os r = .ok (v, r') →
      extractValue os r' = .ok (v, r') ∧ r'.meta = r.meta := by
  intro v r' h
  cases os with
  | true =>
    have h' : PyRes.ok (getForwardCache r, r) = .ok (v, r') := h
    simp only [PyRes.ok.injEq, Prod.mk.injEq] at h'
    obtain ⟨h1, h2⟩ := h'
    subst h2
    subst h1
    exact ⟨rfl, rfl⟩
  | false =>
    have h' : getComputedCache r = .ok (v, r') := h
    obtain ⟨h1, h2⟩ := getComputedCache_idem r v r' h'
    exact ⟨h1, h2⟩

theorem processEntry_idem (training os : Bool) (maps : MetricsMaps) (r : ResultMetric) :
    ∀ (maps' : MetricsMaps) (r' : ResultMetric),
      processEntry training os maps r = .ok (maps', r') →
      processEntry training os maps r' = .ok (maps', r') ∧ r'.meta = r.meta := by
  intro maps' r' h
  unfold processEntry at h ⊢
  cases hev : extractValue os r with
  | exn => rw [hev] at h; exact absurd h (by simp)
  | ok pr =>
    obtain ⟨vOpt, r₁⟩ := pr
    rw [hev] at h
    obtain ⟨hidem, hmeta⟩ := extractValue_idem os r vOpt r₁ hev
    cases vOpt with
    | none =>
      simp only [PyRes.ok.injEq, Prod.mk.injEq] at h
      obtain ⟨h1, h2⟩ := h
      subst h1
      subst h2
      rw [hidem]
      exact ⟨rfl, hmeta⟩
    | some v =>
      dsimp only at h
      simp only [PyRes.ok.injEq, Prod.mk.injEq] at h
      obtain ⟨h1, h2⟩ := h
      subst h1
      subst h2
      rw [hidem]
      exact ⟨rfl, hmeta⟩

theorem getMetricsGo_idem (training os : Bool) :
    ∀ (l : List (PyStr × ResultMetric)) (maps m : MetricsMaps)
      (l' : List (PyStr × ResultMetric)),
      getMetricsGo training os l maps = .ok (m, l') →
      getMetricsGo training os l' maps = .ok (m, l') := by
  intro l
  induction l with
  | nil =>
    intro maps m l' h
    rw [getMetricsGo] at h
    simp only [PyRes.ok.injEq, Prod.mk.injEq] at h
    obtain ⟨h1, h2⟩ := h
    subst h1
    subst h2
    rw [getMetricsGo]
  | cons p t ih =>
    obtain ⟨k, r⟩ := p
    intro maps m l' h
    rw [getMetricsGo] at h
    by_cases hrs : r.meta.has_reset = true
    · rw [if_pos hrs] at h
      cases hgt : getMetricsGo training os t maps with
      | exn => rw [hgt] at h; exact absurd h (by simp)
      | ok pr =>
        obtain ⟨m₁, rs⟩ := pr
        rw [hgt] at h
        simp only [PyRes.ok.injEq, Prod.mk.injEq] at h
        obtain ⟨h1, h2⟩ := h
        subst h1
        subst h2
        rw [getMetricsGo, if_pos hrs, ih maps m₁ rs hgt]
    · rw [if_neg hrs] at h
      cases hpe : processEntry training os maps r with
      | exn => rw [hpe] at h; exact absurd h (by simp)
      | ok pr =>
        obtain ⟨maps₁, r₁⟩ := pr
        rw [hpe] at h
        dsimp only at h
        cases hgt : getMetricsGo training os t maps₁ with
        | exn => rw [hgt] at h; exact absurd h (by simp)
        | ok pr₂ =>
          obtain ⟨m₂, rs⟩ := pr₂
          rw [hgt] at h
          simp only [PyRes.ok.injEq, Prod.mk.injEq] at h
          obtain ⟨h1, h2⟩ := h
          subst h1
          subst h2
          obtain ⟨hpidem, hmeta⟩ := processEntry_idem training os maps r maps₁ r₁ hpe
          have hrs' : ¬ r₁.meta.has_reset = true := by rw [hmeta]; exact hrs
          rw [getMetricsGo, if_neg hrs', hpidem]
          dsimp only
          rw [ih maps₁ m₂ rs hgt]

/-- C8.  For every collection state, if `get_epoch_metrics()` returns a
result map `m` and leaves the collection in state `c₁`, then calling
`get_epoch_metrics()` again on `c₁` (no intervening `log` or `reset`)
returns the identical map `m` and leaves every accumulator unchanged
(`c₁` is a fixed point): the epoch value computed lazily on the first read
is cached and reused. -/
theorem C8_epoch_idempotent (c : ResultCollection) (m : MetricsMaps) (c₁ : ResultCollection)
    (h : c.get_epoch_metrics = .ok (m, c₁)) :
    c₁.get_epoch_metrics = .ok (m, c₁) := by
  unfold ResultCollection.get_epoch_metrics ResultCollection.get_metrics at h ⊢
  cases hg : getMetricsGo c.training false c.entries emptyMaps with
  | exn => rw [hg] at h; exact absurd h (by simp)
  | ok pr =>
    obtain ⟨m₀, es⟩ := pr
    rw [hg] at h
    simp only [PyRes.ok.injEq, Prod.mk.injEq] at h
    obtain ⟨h1, h2⟩ := h
    subst h1
    subst h2
    have hgo := getMetricsGo_idem c.training false c.entries emptyMaps m₀ es hg
    dsimp only
    rw [hgo]

/-- Witness for C8 on a one-entry collection (max reduction, value 3). -/
theorem C8_epoch_idempotent_witness :
    ResultCollection.get_epoch_metrics
      { training := true
        on_epoch_end_reached := false
        current_fx := none
        batch_size := 1
        batch_idx := none
        entries := [(("t.a").data,
          { meta := { fx := ("t").data, name := ("a").data, reduce_fx := .max }
            is_tensor := true
            value := some (.tensor 3)
            cumulated_batch_size := 0
            fwdCache := none
            computed := some 3 })] }
      = .ok
        ({ callback := [(("a").data, 3)], pbar := [], logMap := [(("a").data, 3)] },
         { training := true
           on_epoch_end_reached := false
           current_fx := none
           batch_size := 1
           batch_idx := none
           entries := [(("t.a").data,
             { meta := { fx := ("t").data, name := ("a").data, reduce_fx := .max }
               is_tensor := true
               value := some (.tensor 3)
               cumulated_batch_size := 0
               fwdCache := none
               computed := some 3 })] }) :=
  C8_epoch_idempotent
    { training := true
      on_epoch_end_reached := false
      current_fx := none
      batch_size := 1
      batch_idx := none
      entries := [(("t.a").data,
        { meta := { fx := ("t").data, name := ("a").data, reduce_fx := .max }
          is_tensor := true
          value := some (.tensor 3)
          cumulated_batch_size := 0
          fwdCache := none
          computed := none })] }
    { callback := [(("a").data, 3)], pbar := [], logMap := [(("a").data, 3)] }
    { training := true
      on_epoch_end_reached := false
      current_fx := none
      batch_size := 1
      batch_idx := none
      entries := [(("t.a").data,
        { meta := { fx := ("t").data, name := ("a").data, reduce_fx := .max }
          is_tensor := true
          value := some (.tensor 3)
          cumulated_batch_size := 0
          fwdCache := none
          computed := some 3 })] }
    (by decide)

theorem assocFind_assocSet {α : Type} (l : List (PyStr × α)) (k k' : PyStr) (v : α) :
    assocFind (assocSet l k v) k' = if k' = k then some v else assocFind l k' := by
  induction l with
  | nil =>
    by_cases h : k' = k <;> simp [assocSet, assocFind, h]
  | cons p t ih =>
    obtain ⟨k₀, v₀⟩ := p
    by_cases h1 : k = k₀
    · subst h1
      by_cases h2 : k' = k <;> simp [assocSet, assocFind, h2]
    · by_cases h2 : k' = k₀
      · subst h2
        have h1' : ¬ k' = k := fun h => h1 h.symm
        simp [assocSet, assocFind, h1, h1']
      · simp [assocSet, assocFind, h1, h2, ih]

theorem extractName_meta (r r' : ResultMetric) (h : r'.meta = r.meta) :
    extractName r' = extractName r := by
  unfold extractName dlSuffix
  rw [h]

theorem extractForkedName_meta (r r' : ResultMetric) (os : Bool) (h : r'.meta = r.meta) :
    extractForkedName r' os = extractForkedName r os := by
  unfold extractForkedName Metadata.forked_name Metadata.forked dlSuffix
  rw [h]

theorem processEntry_callback_other (training os : Bool) (maps : MetricsMaps)
    (r : ResultMetric) (maps' : MetricsMaps) (r' : ResultMetric) (nm : PyStr)
    (h : processEntry training os maps r = .ok (maps', r'))
    (h1 : nm ≠ extractName r) (h2 : nm ≠ extractForkedName r os) :
    assocFind maps'.callback nm = assocFind maps.callback nm := by
  unfold processEntry at h
  cases hev : extractValue os r with
  | exn => rw [hev] at h; exact absurd h (by simp)
  | ok pr =>
    obtain ⟨vOpt, r₁⟩ := pr
    rw [hev] at h
    obtain ⟨_, hmeta⟩ := extractValue_idem os r vOpt r₁ hev
    cases vOpt with
    | none =>
      simp only [PyRes.ok.injEq, Prod.mk.injEq] at h
      obtain ⟨hm, _⟩ := h
      subst hm
      rfl
    | some v =>
      dsimp only at h
      simp only [PyRes.ok.injEq, Prod.mk.injEq] at h
      obtain ⟨hm, _⟩ := h
      subst hm
      have hn1 : nm ≠ extractName r₁ := by
        rw [extractName_meta r r₁ hmeta]
        exact h1
      have hn2 : nm ≠ extractForkedName r₁ os := by
        rw [extractForkedName_meta r r₁ os hmeta]
        exact h2
      by_cases hl : r₁.meta.logger = true <;>
      by_cases hc : (training || (r₁.meta.on_epoch && !os)) = true <;>
      by_cases hp : r₁.meta.prog_bar = true <;>
        simp [hl, hc, hp, assocFind_assocSet, hn1, hn2]

theorem processEntry_callback_target (training os : Bool) (maps : MetricsMaps)
    (r r' : ResultMetric) (v : Val)
    (hev : extractValue os r = .ok (some v, r')) :
    ∃ maps', processEntry training os maps r = .ok (maps', r') ∧
      assocFind maps'.callback (extractName r')
        = (if training || (r'.meta.on_epoch && !os) then some v
           else assocFind maps.callback (extractName r')) ∧
      assocFind maps'.callback (extractForkedName r' os)
        = (if training || (r'.meta.on_epoch && !os) then some v
           else assocFind maps.callback (extractForkedName r' os)) := by
  unfold processEntry
  rw [hev]
  dsimp only
  refine ⟨_, rfl, ?_, ?_⟩
  · by_cases hl : r'.meta.logger = true <;>
    by_cases hc : (training || (r'.meta.on_epoch && !os)) = true <;>
    by_cases hp : r'.meta.prog_bar = true <;>
      simp [hl, hc, hp, assocFind_assocSet]
  · by_cases hl : r'.meta.logger = true <;>
    by_cases hc : (training || (r'.meta.on_epoch && !os)) = true <;>
    by_cases hp : r'.meta.prog_bar = true <;>
      simp [hl, hc, hp, assocFind_assocSet]

theorem getMetricsGo_append (training os : Bool) :
    ∀ (l₁ l₂ : List (PyStr × ResultMetric)) (maps : MetricsMaps),
      getMetricsGo training os (l₁ ++ l₂) maps
        = match getMetricsGo training os l₁ maps with
          | .exn => .exn
          | .ok (m₁, l₁') =>
            match getMetricsGo training os l₂ m₁ with
            | .exn => .exn
            | .ok (m₂, l₂') => .ok (m₂, l₁' ++ l₂') := by
  intro l₁
  induction l₁ with
  | nil =>
    intro l₂ maps
    simp only [List.nil_append]
    rw [getMetricsGo]
    dsimp only
    cases hg : getMetricsGo training os l₂ maps with
    | exn => rfl
    | ok pr =>
      obtain ⟨m₂, l₂'⟩ := pr
      simp
  | cons p t ih =>
    obtain ⟨k, r⟩ := p
    intro l₂ maps
    rw [List.cons_append, getMetricsGo, getMetricsGo]
    by_cases hrs : r.meta.has_reset = true
    · rw [if_pos hrs, if_pos hrs, ih l₂ maps]
      cases hg1 : getMetricsGo training os t maps with
      | exn => rfl
      | ok pr =>
        obtain ⟨m₁, l₁'⟩ := pr
        dsimp only
        cases hg2 : getMetricsGo training os l₂ m₁ with
        | exn => rfl
        | ok pr₂ =>
          obtain ⟨m₂, l₂'⟩ := pr₂
          rfl
    · rw [if_neg hrs, if_neg hrs]
      cases hpe : processEntry training os maps r with
      | exn => rfl
      | ok pr =>
        obtain ⟨maps₁, r₁⟩ := pr
        dsimp only
        rw [ih l₂ maps₁]
        cases hg1 : getMetricsGo training os t maps₁ with
        | exn => rfl
        | ok pr₂ =>
          obtain ⟨m₁, l₁'⟩ := pr₂
          dsimp only
          cases hg2 : getMetricsGo training os l₂ m₁ with
          | exn => rfl
          | ok pr₃ =>
            obtain ⟨m₂, l₂'⟩ := pr₃
            rfl

theorem getMetricsGo_callback_other (training os : Bool) :
    ∀ (l : List (PyStr × ResultMetric)) (maps m : MetricsMaps)
      (l' : List (PyStr × ResultMetric)) (nm : PyStr),
      getMetricsGo training os l maps = .ok (m, l') →
      (∀ p ∈ l, nm ≠ extractName p.2 ∧ nm ≠ extractForkedName p.2 os) →
      assocFind m.callback nm = assocFind maps.callback nm := by
  intro l
  induction l with
  | nil =>
    intro maps m l' nm h _
    rw [getMetricsGo] at h
    simp only [PyRes.ok.injEq, Prod.mk.injEq] at h
    obtain ⟨h1, _⟩ := h
    subst h1
    rfl
  | cons p t ih =>
    obtain ⟨k, r⟩ := p
    intro maps m l' nm h hdis
    rw [getMetricsGo] at h
    by_cases hrs : r.meta.has_reset = true
    · rw [if_pos hrs] at h
      cases hgt : getMetricsGo training os t maps with
      | exn => rw [hgt] at h; exact absurd h (by simp)
      | ok pr =>
        obtain ⟨m₁, rs⟩ := pr
        rw [hgt] at h
        simp only [PyRes.ok.injEq, Prod.mk.injEq] at h
        obtain ⟨h1, _⟩ := h
        subst h1
        exact ih maps m₁ rs nm hgt (fun q hq => hdis q (List.mem_cons_of_mem _ hq))
    · rw [if_neg hrs] at h
      cases hpe : processEntry training os maps r with
      | exn => rw [hpe] at h; exact absurd h (by simp)
      | ok pr =>
        obtain ⟨maps₁, r₁⟩ := pr
        rw [hpe] at h
        dsimp only at h
        cases hgt : getMetricsGo training os t maps₁ with
        | exn => rw [hgt] at h; exact absurd h (by simp)
        | ok pr₂ =>
          obtain ⟨m₂, rs⟩ := pr₂
          rw [hgt] at h
          simp only [PyRes.ok.injEq, Prod.mk.injEq] at h
          obtain ⟨h1, _⟩ := h
          subst h1
          have hd := hdis (k, r) (List.mem_cons_self _ _)
          have hother := processEntry_callback_other training os maps r maps₁ r₁ nm hpe hd.1 hd.2
          rw [ih maps₁ m₂ rs nm hgt (fun q hq => hdis q (List.mem_cons_of_mem _ hq))]
          exact hother

/-- C7.  In every `get_metrics(on_step)` view, a non-skipped entry (its
metadata does not carry `has_reset`, and its selected value is non-empty) is
placed in the callback map under both its base display name and its forked
display name exactly when the collection is in training mode, or when the
entry's `on_epoch` flag is set and the view is the epoch view (`on_step`
false); in all other cases the entry is absent from the callback map.  The
surrounding entries are assumed not to collide with the entry's display
names. -/
theorem C7_callback_routing (c : ResultCollection) (os : Bool)
    (pre post : List (PyStr × ResultMetric)) (k : PyStr) (e e' : ResultMetric) (v : Val)
    (m : MetricsMaps) (c' : ResultCollection)
    (hsplit : c.entries = pre ++ (k, e) :: post)
    (hvalid : e.meta.has_reset = false)
    (hval : extractValue os e = .ok (some v, e'))
    (hdisj : ∀ p ∈ pre ++ post,
      extractName p.2 ≠ extractName e ∧ extractName p.2 ≠ extractForkedName e os ∧
      extractForkedName p.2 os ≠ extractName e ∧
      extractForkedName p.2 os ≠ extractForkedName e os)
    (hrun : c.get_metrics os = .ok (m, c')) :
    assocFind m.callback (extractName e)
      = (if c.training || (e.meta.on_epoch && !os) then some v else none) ∧
    assocFind m.callback (extractForkedName e os)
      = (if c.training || (e.meta.on_epoch && !os) then some v else none) := by
  unfold ResultCollection.get_metrics at hrun
  cases hg : getMetricsGo c.training os c.entries emptyMaps with
  | exn => rw [hg] at hrun; exact absurd hrun (by simp)
  | ok pr =>
    obtain ⟨m₀, es⟩ := pr
    rw [hg] at hrun
    simp only [PyRes.ok.injEq, Prod.mk.injEq] at hrun
    obtain ⟨h1, _⟩ := hrun
    subst h1
    rw [hsplit, getMetricsGo_append c.training os pre ((k, e) :: post) emptyMaps] at hg
    cases hg1 : getMetricsGo c.training os pre emptyMaps with
    | exn => rw [hg1] at hg; exact absurd hg (by simp)
    | ok pr1 =>
      obtain ⟨m₁, pre'⟩ := pr1
      rw [hg1] at hg
      dsimp only at hg
      rw [getMetricsGo] at hg
      rw [if_neg (by simp [hvalid])] at hg
      obtain ⟨maps₂, hpe, hf1, hf2⟩ :=
        processEntry_callback_target c.training os m₁ e e' v hval
      rw [hpe] at hg
      dsimp only at hg
      cases hg2 : getMetricsGo c.training os post maps₂ with
      | exn => rw [hg2] at hg; exact absurd hg (by simp)
      | ok pr2 =>
        obtain ⟨m₂, post'⟩ := pr2
        rw [hg2] at hg
        simp only [PyRes.ok.injEq, Prod.mk.injEq] at hg
        obtain ⟨hm, _⟩ := hg
        subst hm
        obtain ⟨_, hmeta⟩ := extractValue_idem os e (some v) e' hval
        have hne : extractName e' = extractName e := extractName_meta e e' hmeta
        have hnf : extractForkedName e' os = extractForkedName e os :=
          extractForkedName_meta e e' os hmeta
        have hcond : (c.training || (e'.meta.on_epoch && !os))
            = (c.training || (e.meta.on_epoch && !os)) := by rw [hmeta]
        rw [hne, hcond] at hf1
        rw [hnf, hcond] at hf2
        have hpre1 : assocFind m₁.callback (extractName e) = none := by
          rw [getMetricsGo_callback_other c.training os pre emptyMaps m₁ pre'
              (extractName e) hg1 ?_]
          · rfl
          · intro q hq
            obtain ⟨d1, _, d3, _⟩ := hdisj q (List.mem_append_left post hq)
            exact ⟨d1.symm, d3.symm⟩
        have hpre2 : assocFind m₁.callback (extractForkedName e os) = none := by
          rw [getMetricsGo_callback_other c.training os pre emptyMaps m₁ pre'
              (extractForkedName e os) hg1 ?_]
          · rfl
          · intro q hq
            obtain ⟨_, d2, _, d4⟩ := hdisj q (List.mem_append_left post hq)
            exact ⟨d2.symm, d4.symm⟩
        have hpost1 : assocFind m₂.callback (extractName e)
            = assocFind maps₂.callback (extractName e) := by
          refine getMetricsGo_callback_other c.training os post maps₂ m₂ post'
            (extractName e) hg2 ?_
          intro q hq
          obtain ⟨d1, _, d3, _⟩ := hdisj q (List.mem_append_right pre hq)
          exact ⟨d1.symm, d3.symm⟩
        have hpost2 : assocFind m₂.callback (extractForkedName e os)
            = assocFind maps₂.callback (extractForkedName e os) := by
          refine getMetricsGo_callback_other c.training os post maps₂ m₂ post'
            (extractForkedName e os) hg2 ?_
          intro q hq
          obtain ⟨_, d2, _, d4⟩ := hdisj q (List.mem_append_right pre hq)
          exact ⟨d2.symm, d4.symm⟩
        rw [hpre1] at hf1
        rw [hpre2] at hf2
        constructor
        · rw [hpost1, hf1]
        · rw [hpost2, hf2]

/-- Witness for C7: a training-mode collection with one valid epoch entry
routes it into the callback map under both names. -/
theorem C7_callback_routing_witness :
    assocFind [(("a").data, (3 : Val))]
      (extractName
        { meta := { fx := ("t").data, name := ("a").data, reduce_fx := .max }
          is_tensor := true
          value := some (.tensor 3)
          cumulated_batch_size := 0
          fwdCache := none
          computed := none }) = some 3 ∧
    assocFind [(("a").data, (3 : Val))]
      (extractForkedName
        { meta := { fx := ("t").data, name := ("a").data, reduce_fx := .max }
          is_tensor := true
          value := some (.tensor 3)
          cumulated_batch_size := 0
          fwdCache := none
          computed := none } false) = some 3 :=
  C7_callback_routing
    { training := true
      on_epoch_end_reached := false
      current_fx := none
      batch_size := 1
      batch_idx := none
      entries := [(("t.a").data,
        { meta := { fx := ("t").data, name := ("a").data, reduce_fx := .max }
          is_tensor := true
          value := some (.tensor 3)
          cumulated_batch_size := 0
          fwdCache := none
          computed := none })] }
    false [] [] (("t.a").data)
    { meta := { fx := ("t").data, name := ("a").data, reduce_fx := .max }
      is_tensor := true
      value := some (.tensor 3)
      cumulated_batch_size := 0
      fwdCache := none
      computed := none }
    { meta := { fx := ("t").data, name := ("a").data, reduce_fx := .max }
      is_tensor := true
      value := some (.tensor 3)
      cumulated_batch_size := 0
      fwdCache := none
      computed := some 3 }
    3
    ⟨[(("a").data, 3)], [], [(("a").data, 3)]⟩
    { training := true
      on_epoch_end_reached := false
      current_fx := none
      batch_size := 1
      batch_idx := none
      entries := [(("t.a").data,
        { meta := { fx := ("t").data, name := ("a").data, reduce_fx := .max }
          is_tensor := true
          value := some (.tensor 3)
          cumulated_batch_size := 0
          fwdCache := none
          computed := some 3 })] }
    rfl rfl (by decide) (by simp) (by decide)

theorem assocSet_not_mem {α : Type} (l : List (PyStr × α)) (k : PyStr) (v : α)
    (h : k ∉ l.map Prod.fst) : assocSet l k v = l ++ [(k, v)] := by
  induction l with
  | nil => rfl
  | cons p t ih =>
    obtain ⟨k₀, v₀⟩ := p
    simp only [List.map_cons, List.mem_cons, not_or] at h
    obtain ⟨h1, h2⟩ := h
    simp [assocSet, h1, ih h2]

theorem foldl_assocSet {α : Type} :
    ∀ (l acc : List (PyStr × α)),
      (∀ p ∈ l, p.1 ∉ acc.map Prod.fst) → (l.map Prod.fst).Nodup →
      l.foldl (fun es p => assocSet es p.1 p.2) acc = acc ++ l := by
  intro l
  induction l with
  | nil =>
    intro acc _ _
    simp
  | cons p t ih =>
    intro acc hdis hnd
    simp only [List.foldl_cons]
    rw [assocSet_not_mem acc p.1 p.2 (hdis p (List.mem_cons_self _ _))]
    simp only [List.map_cons, List.nodup_cons] at hnd
    rw [ih (acc ++ [(p.1, p.2)]) ?_ hnd.2]
    · simp
    · intro q hq
      simp only [List.map_append, List.mem_append, not_or]
      refine ⟨hdis q (List.mem_cons_of_mem _ hq), ?_⟩
      simp only [List.map_cons, List.map_nil, List.mem_singleton]
      intro hqp
      exact hnd.1 (hqp ▸ List.mem_map_of_mem Prod.fst hq)

/-- C9.  Serializing a collection with `state_dict()` and loading the result
via `load_from_state_dict()` into a fresh collection of the same training
mode — re-supplying live metric objects by attribute name via a mapping that
agrees with the stored accumulators (`reattachAgrees`) — reproduces the
entries exactly, hence identical `compute()` outputs for every key.  The
collection's keys are distinct, as they are in a Python dictionary. -/
theorem C9_state_roundtrip (c : ResultCollection) (metrics : List (PyStr × MetricObj))
    (hnd : (c.entries.map Prod.fst).Nodup)
    (hagree : ∀ p ∈ c.entries, reattachAgrees metrics p.2 = true) :
    ((mkResultCollection c.training).load_from_state_dict c.state_dict metrics).entries
      = c.entries ∧
    ∀ k : PyStr,
      (assocFind ((mkResultCollection c.training).load_from_state_dict
          c.state_dict metrics).entries k).map ResultMetric.compute
        = (assocFind c.entries k).map ResultMetric.compute := by
  have hentries :
      ((mkResultCollection c.training).load_from_state_dict c.state_dict metrics).entries
        = c.entries := by
    unfold ResultCollection.load_from_state_dict ResultCollection.state_dict
      mkResultCollection
    dsimp only
    have hmm : (List.map (fun p => (p.1, p.2.state))
        (List.map (fun p : PyStr × ResultMetric =>
          (p.1, (⟨p.2⟩ : SerializationHelper))) c.entries)) = c.entries := by
      rw [List.map_map]
      exact Eq.trans (List.map_congr_left fun p _ => rfl) (List.map_id _)
    rw [hmm]
    rw [foldl_assocSet c.entries [] (by simp) hnd]
    simp only [List.nil_append]
    by_cases hm : metrics.isEmpty
    · rw [if_pos hm]
    · rw [if_neg hm]
      show List.map _ c.entries = c.entries
      refine Eq.trans (List.map_congr_left ?_) (List.map_id _)
      intro p hp
      have ha := hagree p hp
      unfold reattachAgrees at ha
      cases hattr : p.2.meta.metric_attribute with
      | none => rfl
      | some n =>
        rw [hattr] at ha
        dsimp only at ha ⊢
        cases hfind : assocFind metrics n with
        | none => rfl
        | some o =>
          rw [hfind] at ha
          dsimp only at ha
          simp only [decide_eq_true_eq] at ha
          obtain ⟨k₀, e₀⟩ := p
          obtain ⟨meta, it, val, cum, fc, comp⟩ := e₀
          simp only at ha
          simp [ha]
  exact ⟨hentries, fun k => by rw [hentries]⟩

/-- Witness for C9: a tensor accumulator plus a metric-object accumulator,
round-tripped with the object re-supplied under its recorded attribute
name. -/
theorem C9_state_roundtrip_witness :
    ((mkResultCollection true).load_from_state_dict
        (ResultCollection.state_dict
          { training := true
            on_epoch_end_reached := false
            current_fx := none
            batch_size := 1
            batch_idx := none
            entries := [(("t.a").data,
              { meta := { fx := ("t").data, name := ("a").data }
                is_tensor := true
                value := some (.tensor 3)
                cumulated_batch_size := 2
                fwdCache := none
                computed := none }),
              (("t.m").data,
              { meta := { fx := ("t").data, name := ("m").data,
                          metric_attribute := some (("vm").data) }
                is_tensor := false
                value := some (.obj { computeVal := 5, fwdCache := none })
                cumulated_batch_size := 0
                fwdCache := some 5
                computed := none })] })
        [(("vm").data, { computeVal := 5, fwdCache := none })]).entries
      = [(("t.a").data,
          { meta := { fx := ("t").data, name := ("a").data }
            is_tensor := true
            value := some (.tensor 3)
            cumulated_batch_size := 2
            fwdCache := none
            computed := none }),
          (("t.m").data,
          { meta := { fx := ("t").data, name := ("m").data,
                      metric_attribute := some (("vm").data) }
            is_tensor := false
            value := some (.obj { computeVal := 5, fwdCache := none })
            cumulated_batch_size := 0
            fwdCache := some 5
            computed := none })] :=
  (C9_state_roundtrip
    { training := true
      on_epoch_end_reached := false
      current_fx := none
      batch_size := 1
      batch_idx := none
      entries := [(("t.a").data,
        { meta := { fx := ("t").data, name := ("a").data }
          is_tensor := true
          value := some (.tensor 3)
          cumulated_batch_size := 2
          fwdCache := none
          computed := none }),
        (("t.m").data,
        { meta := { fx := ("t").data, name := ("m").data,
                    metric_attribute := some (("vm").data) }
          is_tensor := false
          value := some (.obj { computeVal := 5, fwdCache := none })
          cumulated_batch_size := 0
          fwdCache := some 5
          computed := none })] }
    [(("vm").data, { computeVal := 5, fwdCache := none })]
    (by decide) (by decide)).1

end PL
